import Mathlib

/-!
A shallow embedding of `adafruit_thermal.py` (class `AdafruitThermal`) from the
Python-Thermal-Printer repository, together with theorems settling the frozen
claims about it.

Modelling conventions:
* Python runtime values that flow through the overridden `write()` method are
  modelled by `PyVal` (an int, a str as its list of code points, or a bytes
  object as its list of byte values).  Python 3 `==`/`!=` between values of
  different types is `False`/`True`; `pyEq` reproduces this.
* Transmissions and the deadline gate (`timeout_wait` / `timeout_set`) are
  modelled as an event trace (`Ev`): a `wait`, a `set d` with the computed
  duration, or a `send v` handing the value `v` to the underlying serial port.
* Durations (`byte_time`, `dot_print_time`, `dot_feed_time`, `resume_time`
  arithmetic) are Python floats in the source; they are modelled as exact
  rationals `ℚ`.  The claims under study concern which delay formula is used
  and where waits/sets occur, not float rounding.
* The session state (the instance attributes of `AdafruitThermal`) is the
  record `PState`.  `firmware_version` is a construction parameter;
  `byte_time = 11 / baudrate` is fixed at construction and
  `dot_print_time` / `dot_feed_time` default to `0.03` / `0.0021` but are
  tunable via `set_times`, so states are built with the timing constants as
  parameters (`mkState`).
-/

namespace AdafruitThermal

/-- A Python runtime value as it can appear in the `write()` data path:
an `int`, a `str` (list of code points) or a `bytes` object (list of bytes). -/
inductive PyVal : Type
  | vint (n : Nat)
  | vstr (cs : List Nat)
  | vbytes (bs : List Nat)
  deriving DecidableEq, Repr

open PyVal

/-- Python 3 `==` on the values above: structural equality within one type,
`False` across types (`int == str`, `bytes == str`, `int == bytes` are all
`False` in Python 3). -/
def pyEq : PyVal → PyVal → Bool
  | vint a, vint b => a == b
  | vstr a, vstr b => a == b
  | vbytes a, vbytes b => a == b
  | _, _ => false

/-- One observable event of the printer session:
`wait` is a call to `timeout_wait()`, `set d` is `timeout_set(d)` with the
computed duration `d`, and `send v` hands the value `v` to the underlying
`Serial.write`. -/
inductive Ev : Type
  | wait
  | set (d : ℚ)
  | send (v : PyVal)
  deriving DecidableEq, Repr

/-- Constructor test used for counting wait events in a trace. -/
def isWait : Ev → Bool
  | .wait => true
  | _ => false

/-- Constructor test used for counting deadline-set events in a trace. -/
def isSet : Ev → Bool
  | .set _ => true
  | _ => false

/-- Constructor test used for counting transmissions in a trace. -/
def isSend : Ev → Bool
  | .send _ => true
  | _ => false

/-- The instance attributes of `AdafruitThermal` that the claims concern.
`resume_time` itself is not stored: the deadline gate is observed through the
`wait`/`set` events of the trace instead of through wall-clock time. -/
structure PState : Type where
  prevByte : PyVal
  column : Nat
  maxColumn : Nat
  charHeight : Nat
  lineSpacing : Nat
  barcodeHeight : Nat
  printMode : Nat
  firmwareVersion : Nat
  sideways : Bool
  altFont : Bool
  byteTime : ℚ
  dotPrintTime : ℚ
  dotFeedTime : ℚ
  deriving DecidableEq, Repr

/-- The session state right after `__init__` (which ends in `reset()`), with
the firmware version and the three timing constants as parameters:
`column = 0`, `max_column = 32`, `char_height = 24`, `line_spacing = 6`,
`barcode_height = 50`, `print_mode = 0`, `prev_byte = "\n"`,
`sideways = alt_font = False`. -/
def mkState (fwv : Nat) (bt dpt dft : ℚ) : PState :=
  { prevByte := vstr [10]
    column := 0
    maxColumn := 32
    charHeight := 24
    lineSpacing := 6
    barcodeHeight := 50
    printMode := 0
    firmwareVersion := fwv
    sideways := false
    altFont := false
    byteTime := bt
    dotPrintTime := dpt
    dotFeedTime := dft }

/-- A concrete new-firmware (268) session state with small integral timing
constants, used for concrete evaluations. -/
def testState : PState := mkState 268 1 3 2

/-- A concrete old-firmware (260) session state. -/
def testState260 : PState := mkState 260 1 3 2

/-- The loop body of `write_bytes`: for each remaining argument it performs
`timeout_wait()`, then `timeout_set(total)` where `total` was computed from
the full argument list, then transmits the one-byte bytes object
`bytes([arg])`. -/
def writeBytesAux (total : ℚ) : List Nat → List Ev
  | [] => []
  | b :: rest => .wait :: .set total :: .send (vbytes [b]) :: writeBytesAux total rest

/-- Method `write_bytes(*args)`: the per-argument loop above with
`total = len(args) * byte_time`. -/
def write_bytes (bt : ℚ) (args : List Nat) : List Ev :=
  writeBytesAux ((args.length : ℚ) * bt) args

/-- One iteration of the loop in the overridden `write()`: the element `c`
is skipped iff `c == 0x13` (a Python `==` across types, hence only an actual
`int 0x13` is filtered); otherwise `timeout_wait()`, the transmission of `c`,
the delay computation with the newline/wrap branches, `timeout_set(d)` and
the `column`/`prev_byte` update, exactly as in the source. -/
def writeOne (s : PState) (c : PyVal) : PState × List Ev :=
  if pyEq c (vint 0x13) then (s, [])
  else
    let d : ℚ := s.byteTime
    if pyEq c (vstr [10]) || (s.column == s.maxColumn) then
      if pyEq s.prevByte (vstr [10]) then
        -- Feed line (blank); the source does not reset `column` here
        ({ s with prevByte := c },
          [.wait, .send c, .set (d + ((s.charHeight : ℚ) + (s.lineSpacing : ℚ)) * s.dotFeedTime)])
      else
        -- Text line: reset column and treat the byte as a newline afterwards
        ({ s with column := 0, prevByte := vstr [10] },
          [.wait, .send c,
            .set (d + (s.charHeight : ℚ) * s.dotPrintTime + (s.lineSpacing : ℚ) * s.dotFeedTime)])
    else
      ({ s with column := s.column + 1, prevByte := c }, [.wait, .send c, .set d])

/-- The overridden `write(*data)`: the loop over the arguments. -/
def write : PState → List PyVal → PState × List Ev
  | s, [] => (s, [])
  | s, c :: rest =>
    let (s1, e1) := writeOne s c
    let (s2, e2) := write s1 rest
    (s2, e1 ++ e2)

theorem writeBytesAux_eq_bind (total : ℚ) (args : List Nat) :
    writeBytesAux total args
      = args.flatMap (fun b => [Ev.wait, Ev.set total, Ev.send (vbytes [b])]) := by
  induction args with
  | nil => rfl
  | cons b rest ih => simp [writeBytesAux, ih]

/-- C1 (amended): `write_bytes` with `n` argument bytes performs, for each
byte in order, one deadline wait, then one deadline set of duration
`n * byte_time`, then that byte's transmission — `n` waits and `n` sets in
total, interleaved before every byte of the burst (the set preceding its
byte's transmission), every set carrying the same whole-burst duration. -/
theorem write_bytes_per_byte_trace (bt : ℚ) (args : List Nat) :
    write_bytes bt args
      = args.flatMap
          (fun b => [Ev.wait, Ev.set ((args.length : ℚ) * bt), Ev.send (vbytes [b])]) := by
  unfold write_bytes
  exact writeBytesAux_eq_bind _ args

/-- C1 counterexample: for the two-byte burst `write_bytes(27, 64)` the trace
contains two waits and two sets, and a wait and a set occur between the two
transmissions (positions 2..5 are send, wait, set, send) — not one wait
before the burst and one set after it as the claim states. -/
theorem write_bytes_two_waits :
    (write_bytes testState.byteTime [27, 64]).length = 6 ∧
    (write_bytes testState.byteTime [27, 64]).countP isWait = 2 ∧
    (write_bytes testState.byteTime [27, 64]).countP isSet = 2 ∧
    (write_bytes testState.byteTime [27, 64]).countP isWait ≠ 1 ∧
    isSend ((write_bytes testState.byteTime [27, 64]).getD 2 Ev.wait) = true ∧
    isWait ((write_bytes testState.byteTime [27, 64]).getD 3 Ev.wait) = true ∧
    isSet ((write_bytes testState.byteTime [27, 64]).getD 4 Ev.wait) = true ∧
    isSend ((write_bytes testState.byteTime [27, 64]).getD 5 Ev.wait) = true := by
  decide

/-- C2 (code evaluated at the failing input): transmitting the newline byte
`b"\n"` — exactly the value `"\n".encode("cp437", "ignore")` that `feed()`
itself passes to `write()` on firmware < 264 — from the freshly initialised
state (`prev_byte = "\n"`, `column = 0`).  The source compares the bytes
object against the str `"\n"`, which is always unequal in Python 3, so the
newline branch is not taken: the column increments to 1, `prev_byte` becomes
the bytes object (not a newline marker), and the deadline set carries only
`byte_time` (here `1`) instead of the claimed
`byte_time + (char_height + line_spacing) * dot_feed_time`
(= `1 + (24 + 6) * 2 = 61` in this state). -/
theorem write_newline_byte_not_detected :
    write testState [vbytes [10]]
      = ({ testState with column := 1, prevByte := vbytes [10] },
          [Ev.wait, Ev.send (vbytes [10]), Ev.set 1]) := by
  decide

/-- C3 (code evaluated at the failing input): passing
`"\x13".encode("cp437", "ignore")` (the bytes object `b"\x13"`) to `write()`.
The filter `c != 0x13` compares a bytes object with the int `0x13`, which is
always unequal in Python 3, so the reserved byte IS transmitted, a deadline
wait and a deadline set ARE performed for it, and `column`/`prev_byte` ARE
changed — each point contrary to the claim. -/
theorem write_x13_transmitted :
    write testState [vbytes [0x13]]
      = ({ testState with column := 1, prevByte := vbytes [0x13] },
          [Ev.wait, Ev.send (vbytes [0x13]), Ev.set 1]) := by
  decide

/-! ### Print-mode toggles (`set_print_mode` / `unset_print_mode` and the
public toggle operations) -/

/-- Method `set_print_mode(mask)`: OR the mask into `print_mode`, retransmit the
mode byte (`write_print_mode` = `write_bytes(27, 33, print_mode)`), then
recompute `char_height` from the double-height bit and `max_column` from the
double-width bit and the current `alt_font` flag. -/
def set_print_mode (s : PState) (mask : Nat) : PState × List Ev :=
  let pm := s.printMode ||| mask
  ({ s with
      printMode := pm
      charHeight := if pm &&& 16 ≠ 0 then 48 else 24
      maxColumn :=
        if pm &&& 32 ≠ 0 then (if s.altFont = false then 16 else 21)
        else (if s.altFont = false then 32 else 42) },
    write_bytes s.byteTime [27, 33, pm])

/-- Method `unset_print_mode(mask)`: AND `print_mode` with the complement of the
mask (`Nat.ldiff` is exactly Python's `print_mode & ~mask` on non-negative
ints), retransmit the mode byte, then the same recomputation as in
`set_print_mode`. -/
def unset_print_mode (s : PState) (mask : Nat) : PState × List Ev :=
  let pm := Nat.ldiff s.printMode mask
  ({ s with
      printMode := pm
      charHeight := if pm &&& 16 ≠ 0 then 48 else 24
      maxColumn :=
        if pm &&& 32 ≠ 0 then (if s.altFont = false then 16 else 21)
        else (if s.altFont = false then 32 else 42) },
    write_bytes s.byteTime [27, 33, pm])

/-- Python's `print_mode & ~mask` (i.e. `Nat.ldiff`) expressed through the
kernel-computable xor/and operations, for evaluating concrete states. -/
theorem ldiff_eq_xor_land (a b : Nat) : Nat.ldiff a b = a ^^^ (a &&& b) := by
  apply Nat.eq_of_testBit_eq
  intro i
  simp [Nat.testBit_ldiff, Nat.testBit_xor, Nat.testBit_land]
  cases a.testBit i <;> cases b.testBit i <;> rfl

/-- The six public print-mode toggle operations (mask values from
`enums.PrintMode`: SMALL_FONT 2, UPDOWN 4, BOLD 8, DOUBLE_HEIGHT 16,
DOUBLE_WIDTH 32, STRIKE 64). -/
inductive Toggle : Type
  | bold (mode : Bool)
  | doubleHeight (mode : Bool)
  | doubleWidth (mode : Bool)
  | upsideDown (mode : Bool)
  | strikethrough (mode : Bool)
  | smallFont (mode : Bool)
  deriving DecidableEq, Repr

/-- Dispatch one toggle.  Note the source order in `small_font`: it calls
`set_print_mode`/`unset_print_mode` FIRST and assigns `alt_font` only
afterwards, so the `max_column` recomputation still sees the old `alt_font`
value. -/
def applyToggle (s : PState) : Toggle → PState × List Ev
  | .bold true => set_print_mode s 8
  | .bold false => unset_print_mode s 8
  | .doubleHeight true => set_print_mode s 16
  | .doubleHeight false => unset_print_mode s 16
  | .doubleWidth true => set_print_mode s 32
  | .doubleWidth false => unset_print_mode s 32
  | .upsideDown true => set_print_mode s 4
  | .upsideDown false => unset_print_mode s 4
  | .strikethrough true => set_print_mode s 64
  | .strikethrough false => unset_print_mode s 64
  | .smallFont true =>
    let (s1, e) := set_print_mode s 2
    ({ s1 with altFont := true }, e)
  | .smallFont false =>
    let (s1, e) := unset_print_mode s 2
    ({ s1 with altFont := false }, e)

/-- The state after a sequence of toggles (events discarded). -/
def applyToggles (s : PState) (ts : List Toggle) : PState :=
  ts.foldl (fun s t => (applyToggle s t).1) s

/-- The `char_height` recomputation both mode functions perform: 48 iff the
double-height bit is set. -/
def chOfMode (pm : Nat) : Nat := if pm &&& 16 ≠ 0 then 48 else 24

theorem applyToggle_charHeight (s : PState) (t : Toggle) :
    (applyToggle s t).1.charHeight = chOfMode (applyToggle s t).1.printMode := by
  cases t with
  | bold b => cases b <;> rfl
  | doubleHeight b => cases b <;> rfl
  | doubleWidth b => cases b <;> rfl
  | upsideDown b => cases b <;> rfl
  | strikethrough b => cases b <;> rfl
  | smallFont b => cases b <;> rfl

theorem applyToggles_charHeight (s : PState) (ts : List Toggle)
    (h : s.charHeight = chOfMode s.printMode) :
    (applyToggles s ts).charHeight = chOfMode (applyToggles s ts).printMode := by
  induction ts generalizing s with
  | nil => simpa [applyToggles] using h
  | cons t rest ih =>
    have h1 := applyToggle_charHeight s t
    simpa [applyToggles] using ih _ h1

/-- C4 (amended): `char_height` is a pure function of the final print-mode
bit-set — any two toggle sequences from a fresh session that end in the same
bit-set leave `char_height` equal (48 iff the double-height bit is set,
else 24).  The analogous statement for `max_column` is false: see the
counterexample, where `small_font` assigns `alt_font` only after the
`max_column` recomputation. -/
theorem toggles_charHeight_pure (fwv : Nat) (bt dpt dft : ℚ) (ts1 ts2 : List Toggle)
    (h : (applyToggles (mkState fwv bt dpt dft) ts1).printMode
          = (applyToggles (mkState fwv bt dpt dft) ts2).printMode) :
    (applyToggles (mkState fwv bt dpt dft) ts1).charHeight
      = (applyToggles (mkState fwv bt dpt dft) ts2).charHeight := by
  have h0 : (mkState fwv bt dpt dft).charHeight
      = chOfMode (mkState fwv bt dpt dft).printMode := by
    show (24 : Nat) = chOfMode 0
    decide
  have h1 := applyToggles_charHeight (mkState fwv bt dpt dft) ts1 h0
  have h2 := applyToggles_charHeight (mkState fwv bt dpt dft) ts2 h0
  rw [h1, h2, h]

/-- Witness for C4's amended theorem at concrete inputs: the permuted pairs
`[bold, double-height]` and `[double-height, bold]` end in the same bit-set,
and the theorem yields equal `char_height` (both 48). -/
theorem toggles_charHeight_pure_concrete :
    (applyToggles (mkState 268 1 3 2) [.bold true, .doubleHeight true]).printMode
      = (applyToggles (mkState 268 1 3 2) [.doubleHeight true, .bold true]).printMode ∧
    (applyToggles (mkState 268 1 3 2) [.bold true, .doubleHeight true]).charHeight
      = (applyToggles (mkState 268 1 3 2) [.doubleHeight true, .bold true]).charHeight := by
  refine ⟨by decide, ?_⟩
  exact toggles_charHeight_pure 268 1 3 2 [.bold true, .doubleHeight true]
    [.doubleHeight true, .bold true] (by decide)

/-- C4 counterexample: the sequences `[small_font(True)]` and
`[small_font(True), bold(True), bold(False)]` end in the same print-mode
bit-set (just the SMALL_FONT bit, value 2), yet leave `max_column = 32`
versus `max_column = 42`: `small_font` recomputes `max_column` before
assigning `alt_font`, so the final `max_column` is not a pure function of
the final bit-set. -/
theorem toggles_maxColumn_not_pure :
    (applyToggles testState [.smallFont true]).printMode = 2 ∧
    (applyToggles testState [.smallFont true, .bold true, .bold false]).printMode = 2 ∧
    (applyToggles testState [.smallFont true]).maxColumn = 32 ∧
    (applyToggles testState [.smallFont true, .bold true, .bold false]).maxColumn = 42 := by
  simp only [applyToggles, List.foldl, applyToggle, set_print_mode, unset_print_mode,
    ldiff_eq_xor_land, testState, mkState]
  decide

/-! ### `set_size`, `reset` and the column invariant -/

/-- Python `str.upper()` restricted to ASCII, on a str given as its list of
code points (sufficient for the `"S"`/`"M"`/`"L"` comparisons below, which
only involve ASCII). -/
def pyUpper (cs : List Nat) : List Nat :=
  cs.map (fun c => if 97 ≤ c ∧ c ≤ 122 then c - 32 else c)

/-- Method `set_size(size)`: uppercase the argument, pick the size byte and assign
`char_height`/`max_column` per the fixed table (`"S"` = `[83]`, `"M"` =
`[77]`, `"L"` = `[76]` as code points), raise `ValueError` otherwise, then
send `write_bytes(29, 33, size)`. -/
def set_size (s : PState) (size : List Nat) : Except String (PState × List Ev) :=
  if pyUpper size = [83] then
    .ok ({ s with charHeight := 24, maxColumn := if s.altFont = false then 32 else 42 },
      write_bytes s.byteTime [29, 33, 0x00])
  else if pyUpper size = [77] then
    .ok ({ s with charHeight := 48, maxColumn := if s.altFont = false then 32 else 42 },
      write_bytes s.byteTime [29, 33, 0x01])
  else if pyUpper size = [76] then
    .ok ({ s with charHeight := 48, maxColumn := if s.altFont = false then 16 else 21 },
      write_bytes s.byteTime [29, 33, 0x11])
  else .error "Text size must be S, M, or L."

/-- Method `reset()`: send `Esc @`, restore the six session fields, and on firmware
≥ 264 additionally program the tab stops with three more bursts. -/
def reset (s : PState) : PState × List Ev :=
  let s1 := { s with
    prevByte := vstr [10]
    column := 0
    maxColumn := 32
    charHeight := 24
    lineSpacing := 6
    barcodeHeight := 50 }
  if 264 ≤ s.firmwareVersion then
    (s1, write_bytes s.byteTime [27, 64] ++ write_bytes s.byteTime [27, 68]
      ++ write_bytes s.byteTime [4, 8, 12, 16] ++ write_bytes s.byteTime [20, 24, 28, 0])
  else (s1, write_bytes s.byteTime [27, 64])

theorem writeOne_maxColumn (s : PState) (c : PyVal) :
    (writeOne s c).1.maxColumn = s.maxColumn := by
  unfold writeOne
  split
  · rfl
  · split
    · split <;> rfl
    · rfl

theorem writeOne_column_le (s : PState) (c : PyVal) (h : s.column ≤ s.maxColumn) :
    (writeOne s c).1.column ≤ (writeOne s c).1.maxColumn := by
  unfold writeOne
  split
  · exact h
  · split
    · split
      · exact h
      · exact Nat.zero_le _
    · rename_i hcond
      have hne : s.column ≠ s.maxColumn := by
        intro he
        simp [he] at hcond
      exact Nat.succ_le_of_lt (Nat.lt_of_le_of_ne h hne)

/-- C5 (amended): along the `write()` path itself the invariant holds — from
any state with `column ≤ max_column` (in particular the freshly reset state
with `column = 0`), any sequence of values passed through `write()` leaves
`column ≤ max_column`, because the column only increments when it differs
from `max_column` and the wrap branch resets it.  The invariant is NOT
preserved by all public operations (see the counterexample: `set_size` can
lower `max_column` below the current column). -/
theorem write_column_le (s : PState) (data : List PyVal) (h : s.column ≤ s.maxColumn) :
    (write s data).1.column ≤ (write s data).1.maxColumn := by
  induction data generalizing s with
  | nil => simpa [write] using h
  | cons c rest ih =>
    simpa [write] using ih (writeOne s c).1 (writeOne_column_le s c h)

/-- Witness for C5's amended theorem: from the fresh state, writing one
printable byte keeps `column ≤ max_column`. -/
theorem write_column_le_concrete :
    testState.column ≤ testState.maxColumn ∧
    (write testState [vbytes [65]]).1.column
      ≤ (write testState [vbytes [65]]).1.maxColumn := by
  exact ⟨by decide, write_column_le testState [vbytes [65]] (by decide)⟩

/-- C5 counterexample: a reachable state violating `column ≤ max_column`.
Write 17 printable bytes from the fresh state (`column = 17 ≤ 32`), then
`set_size("L")` (code points `[76]`): the resulting state has `column = 17`
but `max_column = 16`,
and no newline reset has occurred.  (From there the wrap test
`column == max_column` can never fire again, so further writes push the
column even higher.) -/
theorem column_invariant_broken :
    ((set_size (write testState (List.replicate 17 (vbytes [65]))).1 [76]).toOption.map
        (fun p => (p.1.column, p.1.maxColumn))) = some (17, 16) ∧
    ¬(17 ≤ 16) := by
  constructor
  · decide
  · decide

/-- C10: `reset()` assigns `column = 0`, `max_column = 32`,
`char_height = 24`, `line_spacing = 6`, `barcode_height = 50` and
`prev_byte = "\n"`, and leaves `print_mode`, `alt_font` and `sideways`
unchanged — the host-tracked formatting bits are NOT re-synchronised with
the freshly initialised device. -/
theorem reset_fields (s : PState) :
    (reset s).1.column = 0 ∧
    (reset s).1.maxColumn = 32 ∧
    (reset s).1.charHeight = 24 ∧
    (reset s).1.lineSpacing = 6 ∧
    (reset s).1.barcodeHeight = 50 ∧
    (reset s).1.prevByte = vstr [10] ∧
    (reset s).1.printMode = s.printMode ∧
    (reset s).1.altFont = s.altFont ∧
    (reset s).1.sideways = s.sideways := by
  unfold reset
  split <;> simp

/-! ### `feed`, the barcode subsystem and `has_paper` -/

/-- The loop of old-firmware `feed`: `while lines > 0: write("\n".encode("cp437"))`
— each iteration passes the bytes object `b"\n"` through the overridden
`write()`. -/
def feedLoop : PState → Nat → PState × List Ev
  | s, 0 => (s, [])
  | s, lines + 1 =>
    let (s1, e1) := write s [vbytes [10]]
    let (s2, e2) := feedLoop s1 lines
    (s2, e1 ++ e2)

/-- Method `feed(lines)`: on firmware ≥ 264 send `Esc d lines`, set the deadline to
`dot_feed_time * char_height`, mark `prev_byte = "\n"` and reset the column;
on older firmware, write the encoded newline `lines` times through
`write()`. -/
def feed (s : PState) (lines : Nat) : PState × List Ev :=
  if 264 ≤ s.firmwareVersion then
    ({ s with prevByte := vstr [10], column := 0 },
      write_bytes s.byteTime [27, 100, lines]
        ++ [Ev.set (s.dotFeedTime * (s.charHeight : ℚ))])
  else feedLoop s lines

/-- The thirteen barcode symbologies of `enums.Barcode`. -/
inductive Barcode : Type
  | UPC_A | UPC_E | EAN13 | EAN8 | CODE39 | I25 | CODEBAR | CODE93
  | CODE128 | CODE11 | MSI | ITF | CODABAR
  deriving DecidableEq, Repr

/-- Name `style.name` of the enum member (used in the error message). -/
def barcodeStyleName : Barcode → String
  | .UPC_A => "UPC_A"
  | .UPC_E => "UPC_E"
  | .EAN13 => "EAN13"
  | .EAN8 => "EAN8"
  | .CODE39 => "CODE39"
  | .I25 => "I25"
  | .CODEBAR => "CODEBAR"
  | .CODE93 => "CODE93"
  | .CODE128 => "CODE128"
  | .CODE11 => "CODE11"
  | .MSI => "MSI"
  | .ITF => "ITF"
  | .CODABAR => "CODABAR"

/-- Table `new_dict`: UPC codes and values for `firmware_version >= 264`
(`-1` marks "NOT IN NEW FIRMWARE"). -/
def newDict : Barcode → Int
  | .UPC_A => 65
  | .UPC_E => 66
  | .EAN13 => 67
  | .EAN8 => 68
  | .CODE39 => 69
  | .ITF => 70
  | .CODABAR => 71
  | .CODE93 => 72
  | .CODE128 => 73
  | .I25 => -1
  | .CODEBAR => -1
  | .CODE11 => -1
  | .MSI => -1

/-- Table `old_dict`: UPC codes and values for `firmware_version < 264`
(`-1` marks "NOT IN OLD FIRMWARE"). -/
def oldDict : Barcode → Int
  | .UPC_A => 0
  | .UPC_E => 1
  | .EAN13 => 2
  | .EAN8 => 3
  | .CODE39 => 4
  | .I25 => 5
  | .CODEBAR => 6
  | .CODE93 => 7
  | .CODE128 => 8
  | .CODE11 => 9
  | .MSI => 10
  | .ITF => -1
  | .CODABAR => -1

/-- The table lookup of `print_barcode`: the new table on firmware ≥ 264,
otherwise the old one. -/
def barcodeCode (fwv : Nat) (style : Barcode) : Int :=
  if 264 ≤ fwv then newDict style else oldDict style

/-- The `TypeError` message raised by `print_barcode`:
`"Barcode %s is not supported in firmware %d." % (style.name, firmware_version)`. -/
def unsupportedMsg (style : Barcode) (fwv : Nat) : String :=
  "Barcode " ++ barcodeStyleName style ++ " is not supported in firmware "
    ++ toString fwv ++ "."

/-- UTF-8 encoding of one code point, as performed by Python's
`str.encode("utf-8")` (the `"ignore"` error handler only drops surrogates,
which cannot occur in the inputs considered here). -/
def utf8Char (c : Nat) : List Nat :=
  if c < 0x80 then [c]
  else if c < 0x800 then [0xC0 + c / 64, 0x80 + c % 64]
  else if c < 0x10000 then [0xE0 + c / 4096, 0x80 + (c / 64) % 64, 0x80 + c % 64]
  else [0xF0 + c / 262144, 0x80 + (c / 4096) % 64, 0x80 + (c / 64) % 64, 0x80 + c % 64]

/-- The "Print string" tail of `print_barcode` as send events, with the text
as its list of code points.  Firmware ≥ 264: clamp `n = min(len(text), 255)`,
transmit `chr(n).encode("utf-8")` (NOT a single raw length byte: for
`n ≥ 128` this is two bytes), then each of the first `n` characters
UTF-8-encoded; no terminator.  Older firmware: transmit
`text.encode("utf-8")` in one call — the source sends NO trailing NUL,
despite its own `# Older firmware: write string + NUL` comment. -/
def barcodeContentSends (fwv : Nat) (text : List Nat) : List Ev :=
  if 264 ≤ fwv then
    let n := min text.length 255
    Ev.send (vbytes (utf8Char n))
      :: (text.take n).map (fun c => Ev.send (vbytes (utf8Char c)))
  else
    [Ev.send (vbytes (text.flatMap utf8Char))]

deriving instance DecidableEq for Except

/-- The raw bytes a send event puts on the wire (bytes objects only;
no other value reaches the serial layer on the paths modelled here). -/
def evBytes : Ev → List Nat
  | .send (vbytes bs) => bs
  | _ => []

/-- The byte content of the content portion (length prefix / text /
terminator handling) written by `print_barcode`. -/
def barcodeContent (fwv : Nat) (text : List Nat) : List Nat :=
  (barcodeContentSends fwv text).flatMap evBytes

/-- Method `print_barcode(text, style)`: table lookup, the `TypeError` on `-1`
(raised before anything is transmitted), otherwise `feed()`, the
9-byte header burst, `timeout_wait()` and the barcode-height deadline,
then the content portion; finally `prev_byte = "\n"`.  The result pairs the
events emitted before the outcome with the outcome itself. -/
def print_barcode (s : PState) (text : List Nat) (style : Barcode) :
    List Ev × Except String PState :=
  let n := barcodeCode s.firmwareVersion style
  if n = -1 then ([], .error (unsupportedMsg style s.firmwareVersion))
  else
    let (s1, e1) := feed s 1
    let e2 := write_bytes s1.byteTime [29, 72, 2, 29, 119, 3, 29, 107, n.toNat]
    let e3 := [Ev.wait, Ev.set (((s1.barcodeHeight : ℚ) + 40) * s1.dotPrintTime)]
    let e4 := barcodeContentSends s1.firmwareVersion text
    (e1 ++ e2 ++ e3 ++ e4, .ok { s1 with prevByte := vstr [10] })

set_option maxRecDepth 4000 in
/-- C6 (code evaluated at the failing inputs): on firmware < 264 the content
portion for the two-character ASCII text `"AB"` is exactly its two bytes —
no NUL terminator — so its length is `2`, not `L + 1 = 3` as claimed; and on
firmware ≥ 264 a 200-character ASCII text gets `chr(200)` UTF-8-encoded into
a TWO-byte length prefix, so the content portion has length `202`, not
`1 + min(L, 255) = 201` as claimed. -/
theorem barcode_content_lengths :
    barcodeContent 260 [65, 66] = [65, 66] ∧
    (barcodeContent 260 [65, 66]).length = 2 ∧
    (barcodeContent 268 (List.replicate 200 65)).length = 202 := by
  refine ⟨by decide, by decide, ?_⟩
  decide

/-- C9: the unsupported-symbology error.  For every state, text and style:
if the active table maps the style to `-1`, `print_barcode` emits no event
at all (the error precedes any transmission) and returns exactly the
`TypeError` message naming the symbology and the firmware version; if the
table has a real code, no error is raised.  Moreover the `-1` entries of the
active table are exactly I25, CODEBAR, CODE11 and MSI on firmware ≥ 264, and
exactly ITF and CODABAR on firmware < 264. -/
theorem print_barcode_unsupported (s : PState) (text : List Nat) (style : Barcode) :
    (barcodeCode s.firmwareVersion style = -1 →
      print_barcode s text style
        = ([], .error (unsupportedMsg style s.firmwareVersion))) ∧
    (barcodeCode s.firmwareVersion style ≠ -1 →
      ∃ evs s2, print_barcode s text style = (evs, .ok s2)) ∧
    (264 ≤ s.firmwareVersion →
      (barcodeCode s.firmwareVersion style = -1 ↔
        style = .I25 ∨ style = .CODEBAR ∨ style = .CODE11 ∨ style = .MSI)) ∧
    (s.firmwareVersion < 264 →
      (barcodeCode s.firmwareVersion style = -1 ↔
        style = .ITF ∨ style = .CODABAR)) := by
  refine ⟨?_, ?_, ?_, ?_⟩
  · intro h
    unfold print_barcode
    rw [if_pos h]
  · intro h
    unfold print_barcode
    rw [if_neg h]
    exact ⟨_, _, rfl⟩
  · intro hfw
    unfold barcodeCode
    rw [if_pos hfw]
    cases style <;> simp [newDict]
  · intro hfw
    unfold barcodeCode
    rw [if_neg (by omega)]
    cases style <;> simp [oldDict]

/-- Witness for C9 at concrete inputs: I25 on firmware 268 is rejected with
the exact message and no transmission; ITF on firmware 260 likewise; and a
supported style (CODE128 on 268) is not rejected. -/
theorem print_barcode_unsupported_concrete :
    print_barcode testState [] Barcode.I25
      = ([], .error "Barcode I25 is not supported in firmware 268.") ∧
    print_barcode testState260 [] Barcode.ITF
      = ([], .error "Barcode ITF is not supported in firmware 260.") ∧
    ∃ evs s2, print_barcode testState [] Barcode.CODE128 = (evs, .ok s2) := by
  refine ⟨?_, ?_, ?_⟩
  · exact ((print_barcode_unsupported testState [] Barcode.I25).1 (by decide)).trans
      (by decide)
  · exact ((print_barcode_unsupported testState260 [] Barcode.ITF).1 (by decide)).trans
      (by decide)
  · exact (print_barcode_unsupported testState [] Barcode.CODE128).2.1 (by decide)

/-- The flush-and-query prelude of `has_paper` followed by the
interpretation of the device's response (given here as the list of bytes the
`read(1)` call returned): `stat = ord(result) & 0b00000100; return stat != 0`
when at least one byte arrived, `True` on an empty read. -/
def has_paper (s : PState) (resp : List Nat) : List Ev × Bool :=
  let e1 := write_bytes s.byteTime [12]
  let e2 :=
    if 264 ≤ s.firmwareVersion then write_bytes s.byteTime [27, 118, 0]
    else write_bytes s.byteTime [29, 114, 0]
  (e1 ++ e2,
    if resp.length > 0 then (resp.headD 0 &&& 0b00000100) != 0 else true)

/-- C7 (code evaluated at the failing inputs): on a response byte with bit 2
SET (`0x04`) the source returns `stat != 0`, i.e. `True` ("paper present") —
the opposite of the claimed (and of the docstring's and the source comment's)
`False`; on a response byte with bit 2 CLEAR (`0x00`) it returns `False`,
the opposite of the claimed `True`.  Only the empty-read default `True`
matches the claim. -/
theorem has_paper_inverted :
    (has_paper testState [0x04]).2 = true ∧
    (has_paper testState [0x00]).2 = false ∧
    (has_paper testState []).2 = true := by
  decide

/-! ### `print_bitmap` -/

/-- The bytes read by the inner `for x in range(row_bytes_clipped)` loop of
`print_bitmap` for one raster row whose cursor starts at `i`: positions
`i, i+1, …, i+clipped-1` of the bitmap. -/
def rowSlice (bmp : List Nat) (i clipped : Nat) : List Nat :=
  (List.range clipped).map (fun x => bmp.getD (i + x) 0)

/-- The `for y in range(chunk_height)` loop of `print_bitmap`: each row
transmits its `rowSlice` (the cursor advancing by one per transmitted byte),
then skips `row_bytes - row_bytes_clipped` source bytes.  Returns the
transmitted bytes and the final cursor. -/
def chunkRows (bmp : List Nat) (rb clipped : Nat) : Nat → Nat → List Nat × Nat
  | 0, i => ([], i)
  | y + 1, i =>
    let row := rowSlice bmp i clipped
    let rest := chunkRows bmp rb clipped y (i + clipped + (rb - clipped))
    (row ++ rest.1, rest.2)

/-- The `for rowStart in range(0, height, max_chunk_height)` loop of
`print_bitmap`, on the remaining height: each chunk covers
`chunk_height = min(remaining, max_chunk_height)` rows (`max_chunk_height`
is `mPred + 1`: 1 in line-at-a-time mode, else 255), emits the 4-byte header
burst through `write_bytes`, streams the chunk's raster bytes, and sets the
deadline `chunk_height * dot_print_time`.  Returns the event trace together
with the transmitted raster bytes (the payloads of the raster sends). -/
def bitmapChunkLoop (bt dpt : ℚ) (bmp : List Nat) (rb clipped mPred : Nat) :
    Nat → Nat → List Ev × List Nat
  | 0, _ => ([], [])
  | rem + 1, i =>
    let ch := min (rem + 1) (mPred + 1)
    let body := chunkRows bmp rb clipped ch i
    let rest := bitmapChunkLoop bt dpt bmp rb clipped mPred (rem + 1 - min (rem + 1) (mPred + 1)) body.2
    (write_bytes bt [18, 42, ch, clipped]
        ++ body.1.map (fun b => Ev.send (vbytes [b]))
        ++ [Ev.set ((ch : ℚ) * dpt)] ++ rest.1,
      body.1 ++ rest.2)
  termination_by rem _ => rem
  decreasing_by omega

/-- Method `print_bitmap(width, height, bitmap, line_at_a_time)`:
`row_bytes = floor((width+7)/8)`, clipped at 48 (384-pixel hardware limit),
then the chunk loop from cursor 0; afterwards `prev_byte = "\n"`.
The result is the new state, the event trace, and the raster bytes
transmitted inside chunk bodies. -/
def print_bitmap (s : PState) (width height : Nat) (bmp : List Nat)
    (lineAtATime : Bool) : PState × List Ev × List Nat :=
  let rb := (width + 7) / 8
  let clipped := if rb ≥ 48 then 48 else rb
  let mPred := if lineAtATime then 0 else 254
  let r := bitmapChunkLoop s.byteTime s.dotPrintTime bmp rb clipped mPred height 0
  ({ s with prevByte := vstr [10] }, r.1, r.2)

theorem chunkRows_spec (bmp : List Nat) (rb clipped : Nat) (h : clipped ≤ rb) :
    ∀ (n i : Nat),
      chunkRows bmp rb clipped n i
        = ((List.range n).flatMap (fun y => rowSlice bmp (i + y * rb) clipped),
            i + n * rb) := by
  intro n
  induction n with
  | zero => intro i; simp [chunkRows]
  | succ n ih =>
    intro i
    have hstep : i + clipped + (rb - clipped) = i + rb := by omega
    have harr : ∀ y : Nat, i + rb + y * rb = i + (y + 1) * rb := by
      intro y; ring
    simp only [chunkRows, hstep, ih (i + rb), Prod.mk.injEq]
    constructor
    · rw [List.range_succ_eq_map]
      simp only [List.flatMap_cons, List.flatMap_map, Function.comp]
      simp [harr]
    · ring

theorem bitmapChunkLoop_raster (bt dpt : ℚ) (bmp : List Nat)
    (rb clipped mPred : Nat) (h : clipped ≤ rb) :
    ∀ (rem i : Nat),
      (bitmapChunkLoop bt dpt bmp rb clipped mPred rem i).2
        = (List.range rem).flatMap (fun y => rowSlice bmp (i + y * rb) clipped) := by
  intro rem
  induction rem using Nat.strong_induction_on with
  | _ rem ih =>
    intro i
    match rem with
    | 0 => simp [bitmapChunkLoop]
    | rem + 1 =>
      rw [bitmapChunkLoop]
      have hch : min (rem + 1) (mPred + 1) ≤ rem + 1 := Nat.min_le_left _ _
      have hcur := chunkRows_spec bmp rb clipped h (min (rem + 1) (mPred + 1)) i
      have hrec := ih (rem + 1 - min (rem + 1) (mPred + 1)) (by omega)
        (i + min (rem + 1) (mPred + 1) * rb)
      have hsplit : rem + 1
          = min (rem + 1) (mPred + 1) + (rem + 1 - min (rem + 1) (mPred + 1)) := by
        omega
      have harr : ∀ y : Nat,
          i + min (rem + 1) (mPred + 1) * rb + y * rb
            = i + (min (rem + 1) (mPred + 1) + y) * rb := by
        intro y; ring
      simp only [hcur, hrec, harr]
      conv_rhs => rw [hsplit, List.range_add]
      simp [List.flatMap_map, Function.comp]

/-- C8: for every width, height, bitmap and chunking mode, the raster bytes
transmitted by `print_bitmap` are exactly, row by row, the first
`min(ceil(width/8), 48)` bytes of each source row, the source cursor
advancing by the unclipped `ceil(width/8) = (width+7)/8` per row — so
exactly `min(ceil(width/8), 48)` bytes are transmitted per row, clipped
trailing bytes are skipped (not sent or shifted into later rows), and no
raster byte at a row offset ≥ 48 is ever transmitted.  The second conjunct
identifies the source's clipping branch with `min`; the remaining conjuncts
record the per-row count and the 48-byte bound. -/
theorem print_bitmap_row_clipping (s : PState) (w h : Nat) (bmp : List Nat)
    (lineAtATime : Bool) :
    (print_bitmap s w h bmp lineAtATime).2.2
      = (List.range h).flatMap
          (fun y => rowSlice bmp (y * ((w + 7) / 8)) (min ((w + 7) / 8) 48)) ∧
    (if (w + 7) / 8 ≥ 48 then 48 else (w + 7) / 8) = min ((w + 7) / 8) 48 ∧
    (∀ y : Nat,
      (rowSlice bmp (y * ((w + 7) / 8)) (min ((w + 7) / 8) 48)).length
        = min ((w + 7) / 8) 48) ∧
    min ((w + 7) / 8) 48 ≤ 48 := by
  have hclip : (if (w + 7) / 8 ≥ 48 then 48 else (w + 7) / 8)
      = min ((w + 7) / 8) 48 := by
    split <;> omega
  refine ⟨?_, hclip, fun y => by simp [rowSlice], Nat.min_le_right _ _⟩
  show (bitmapChunkLoop s.byteTime s.dotPrintTime bmp ((w + 7) / 8)
      (if (w + 7) / 8 ≥ 48 then 48 else (w + 7) / 8)
      (if lineAtATime then 0 else 254) h 0).2 = _
  rw [hclip]
  rw [bitmapChunkLoop_raster s.byteTime s.dotPrintTime bmp ((w + 7) / 8)
    (min ((w + 7) / 8) 48) (if lineAtATime then 0 else 254)
    (Nat.min_le_left _ _) h 0]
  simp

end AdafruitThermal
